/-
A verification development for the gmail-assistant application (src/main.py).

The script is a Streamlit app: on every user interaction the whole script
re-executes top to bottom, with `st.session_state` as the only state that
survives a rerun.  We embed the script shallowly:

  * Python strings are `List Char` (`Str`), and the Python string operations
    the script uses (`split`, `replace`, `lower`, `startswith`, `strip`,
    `in`) are defined below by structural recursion with the same semantics.
  * `st.session_state` entries `summary_{id}` / `reply_{id}` are two
    association lists keyed by message id (`Session`); a Python dict has
    unique keys, so the association lists are maintained up to
    lookup-equivalence (insert = overwrite, delete = remove the key).
  * The Gmail backend is a `Gmail` record: the inbox snapshots, the set of
    message ids carrying the UNREAD label, the user labels, the label sets
    applied to threads, and a log of every `messages().send` RPC that the
    backend accepted.  Which RPCs raise is injected per interaction through
    an `RpcBehavior` record (the send RPC, the two `threads().modify` calls
    and `labels().create`); `list`/`get` are modelled as always succeeding.
  * The Gemini client `llm.invoke` is an oracle `Str → Option Str`
    (`none` = the provider raised; the script catches that and substitutes
    a sentinel text).
  * One rerun of the script with one (or no) button pressed is `runOnce`;
    a user session is a fold `runTrace` over a list of `RunInput`s.
  * Raised-and-propagated Python exceptions are `Option PyExn` results; the
    top-level `try/except` of the script is the discarded third component.

Definitions keep the names of the Python functions they translate
(`load_creds`, `creds_valid`, `get_or_create_label`, `send_email`,
`summarize_email`, `generate_reply`, `authenticate_manual`).
-/
import Mathlib

namespace GmailApp

/-- Python strings, modelled as their character lists. -/
abbrev Str := List Char

/-- Shorthand turning a Lean string literal into the model's string type. -/
def str (s : String) : Str := s.data

/-- The Python exceptions the model distinguishes. -/
inductive PyExn
  | attributeError
  | unpicklingError
  | backendError
  | refreshFailure
  | exchangeFailure
deriving DecidableEq

/-! ## Python string operations used by the script -/

/-- Python `x in s` for a single character (membership test). -/
def hasChar (x : Char) : Str → Bool
  | [] => false
  | c :: cs => c == x || hasChar x cs

/-- Python `s.startswith(p)`: `beginsWith s p` is true iff `p` is an initial
segment of `s`. -/
def beginsWith : Str → Str → Bool
  | _, [] => true
  | [], _ :: _ => false
  | c :: s, d :: p => d == c && beginsWith s p

/-- Python `s.lower()` (the script only ever lowercases ASCII subject
prefixes, so `Char.toLower` is adequate). -/
def lowerStr (s : Str) : Str := s.map Char.toLower

/-- Python `s.split(sep)` for a one-character separator: every occurrence
splits, empty pieces are kept. -/
def splitOnChar (sep : Char) : Str → List Str
  | [] => [[]]
  | c :: cs =>
    match splitOnChar sep cs with
    | [] => [[]]
    | h :: t => if c == sep then [] :: h :: t else (c :: h) :: t

/-- Python `s.replace(x, "")`: drop every occurrence of the character. -/
def removeChar (x : Char) (s : Str) : Str := s.filter (fun c => !(c == x))

/-- Python `xs[-1]` on the (always nonempty) result of a split. -/
def lastStr : List Str → Str
  | [] => []
  | [x] => x
  | _ :: x :: t => lastStr (x :: t)

/-- ASCII whitespace, for Python `str.strip()`. -/
def isSpaceChar (c : Char) : Bool := c == ' ' || c == '\n' || c == '\t' || c == '\r'

/-- Python `s.strip()`. -/
def strTrim (s : Str) : Str :=
  ((s.dropWhile isSpaceChar).reverse.dropWhile isSpaceChar).reverse

/-- Decimal rendering of a `Nat`, used to mint distinct backend ids. -/
def natToStr (n : Nat) : Str := (toString n).data

/-! ## Credentials (src/main.py lines 44-59, 174-192) -/

/-- The fields of a `google.oauth2` credential object the script reads:
`valid`, `expired` and `refresh_token` (a token string or `None`). -/
structure Credential where
  valid : Bool
  expired : Bool
  refreshToken : Option Str
deriving DecidableEq

/-- Python truthiness of an optional string (`None` and `""` are falsy). -/
def pyTruthyStr : Option Str → Bool
  | none => false
  | some s => !s.isEmpty

/-- Python attribute access `creds.valid`: raises `AttributeError` on `None`. -/
def attrValid : Option Credential → Except PyExn Bool
  | none => .error .attributeError
  | some c => .ok c.valid

/-- `creds_valid(creds)` (line 58): `creds and creds.valid`.  The Python
`and` short-circuits, so the attribute is never read when `creds` is falsy;
the returned value is the truthiness of the Python result. -/
def creds_valid (creds : Option Credential) : Except PyExn Bool :=
  if creds.isSome then attrValid creds else .ok false

/-- The states of the pickle store `token.pickle`: no file, a file whose
bytes `pickle.load` rejects, or a file holding a pickled credential. -/
inductive Store
  | missing
  | corrupt
  | stored (c : Credential)
deriving DecidableEq

/-- `load_creds()` (lines 48-53): returns `None` when the file is absent and
otherwise runs `pickle.load`, which raises on bytes that are not a pickle.
No validation of the unpickled object is performed. -/
def load_creds : Store → Except PyExn (Option Credential)
  | .missing => .ok none
  | .corrupt => .error .unpicklingError
  | .stored c => .ok (some c)

/-- The module-level startup block (lines 175-186), parametrised by the
outcome of `creds.refresh(Request())` (the identity backend round-trip,
which also mutates the credential; the oracle returns the updated object,
or the exception it raised).  The result is `(session credential, what
save_creds persisted)`; an `Except.error` is an exception that propagates
uncaught out of the module body. -/
def startupFlow (stored : Option Credential)
    (rf : Credential → Except PyExn Credential) :
    Except PyExn (Option Credential × Option Credential) := do
  let v ← creds_valid stored
  if v then
    return (stored, none)
  else
    match stored with
    | some c =>
      if c.expired && pyTruthyStr c.refreshToken then do
        let c2 ← rf c
        return (some c2, some c2)
      else
        return (none, none)
    | none => return (none, none)

/-- Where the UI goes after startup (lines 189-199): with no session
credential the Connect button (leading into `authenticate_manual`) is
shown; with one, the inbox view. -/
inductive Route
  | connectPath
  | inboxPath
deriving DecidableEq

/-- The routing decision of lines 189 and 199. -/
def uiRoute : Option Credential → Route
  | none => .connectPath
  | some _ => .inboxPath

/-! ## The mail backend (src/main.py lines 94-170) -/

/-- The snapshot `get_unread_emails` builds for each message
(lines 107-113). -/
structure Email where
  id : Str
  threadId : Str
  subject : Str
  sender : Str
  snippet : Str
deriving DecidableEq

/-- One accepted `messages().send` RPC: the recipient, the subject placed on
the MIME message, the body, and the thread the send was associated with. -/
structure SendReq where
  toAddr : Str
  subject : Str
  body : Str
  threadId : Str
deriving DecidableEq

/-- The Gmail backend state the script observes and mutates. -/
structure Gmail where
  /-- Message snapshots known to the backend (what `get` returns). -/
  inbox : List Email
  /-- Ids of the messages currently carrying the UNREAD label. -/
  unreadIds : List Str
  /-- Existing user labels as (name, id) pairs, in list order. -/
  labels : List (Str × Str)
  /-- Label ids applied to threads by `threads().modify`. -/
  threadLabels : List (Str × Str)
  /-- Every send RPC the backend accepted, in order. -/
  sendLog : List SendReq
deriving DecidableEq

/-- Which backend RPCs raise during one interaction (failure injection for
the four fallible calls `send_email` performs). -/
structure RpcBehavior where
  sendFails : Bool
  removeUnreadFails : Bool
  createLabelFails : Bool
  addLabelFails : Bool
deriving DecidableEq

/-- Every RPC succeeds. -/
def RpcBehavior.allOk : RpcBehavior := ⟨false, false, false, false⟩

/-- The thread of a message id, looked up in the backend snapshots. -/
def threadOfId (inbox : List Email) (i : Str) : Option Str :=
  (inbox.find? (fun e => e.id == i)).map (fun e => e.threadId)

/-- `get_or_create_label(service, label_name)` (lines 132-145): scan the
existing labels for an exact name match (first match wins) and return its
id; otherwise issue `labels().create` and return the fresh id.  The
backend-assigned id of a created label is modelled as `Label_<k>` with `k`
the number of existing labels.  The returned `Gmail` carries the mutation
performed before a raise. -/
def get_or_create_label (rpc : RpcBehavior) (g : Gmail) (labelName : Str) :
    Gmail × Except PyExn Str :=
  match g.labels.find? (fun l => l.1 == labelName) with
  | some l => (g, .ok l.2)
  | none =>
    if rpc.createLabelFails then (g, .error .backendError)
    else
      let newId := str "Label_" ++ natToStr g.labels.length
      ({ g with labels := g.labels ++ [(labelName, newId)] }, .ok newId)

/-- The subject placed on the outgoing MIME message (line 150):
`"Re: " + subject if not subject.lower().startswith("re:") else subject`. -/
def replySubject (subject : Str) : Str :=
  if !(beginsWith (lowerStr subject) (str "re:")) then str "Re: " ++ subject
  else subject

/-- Lines 161-163: `threads().modify` removing UNREAD from the whole
thread; every message of that thread loses the UNREAD label. -/
def dropUnreadThread (g : Gmail) (threadId : Str) : Gmail :=
  { g with
    unreadIds := g.unreadIds.filter
      (fun i => !(threadOfId g.inbox i == some threadId)) }

/-- Lines 165-168: resolve the "Replied" label and apply it to the thread
with the second `threads().modify`. -/
def applyReplied (rpc : RpcBehavior) (threadId : Str) (g : Gmail) :
    Gmail × Option PyExn :=
  match get_or_create_label rpc g (str "Replied") with
  | (g3, .error e) => (g3, some e)
  | (g3, .ok lid) =>
    if rpc.addLabelFails then (g3, some .backendError)
    else ({ g3 with threadLabels := g3.threadLabels ++ [(threadId, lid)] }, none)

/-- `send_email(service, to, subject, message_text, thread_id)`
(lines 147-170).  In order: the send RPC (on success the message is
delivered and logged), `threads().modify` removing UNREAD from the whole
thread, `get_or_create_label("Replied")`, and `threads().modify` adding the
resolved label.  The first RPC that raises propagates; mutations already
performed stay performed, so the result is the reached backend state plus
the exception, if any. -/
def send_email (rpc : RpcBehavior) (g : Gmail)
    (toAddr subject messageText threadId : Str) : Gmail × Option PyExn :=
  if rpc.sendFails then (g, some .backendError)
  else
    let g1 := { g with
      sendLog := g.sendLog ++ [⟨toAddr, replySubject subject, messageText, threadId⟩] }
    if rpc.removeUnreadFails then (g1, some .backendError)
    else applyReplied rpc threadId (dropUnreadThread g1 threadId)

/-- The recipient resolved by the send button handler (line 235):
`email['sender'].split('<')[-1].replace('>', '') if '<' in email['sender']
else email['sender']`. -/
def toEmail (sender : Str) : Str :=
  if hasChar '<' sender then
    removeChar '>' (lastStr (splitOnChar '<' sender))
  else sender

/-- Modelled from the spec's words, for comparison with `toEmail`: the
content between the last occurrence of the '<' character and the following
'>' character when the field contains an angle-bracketed part, the field
verbatim otherwise. -/
def specRecipient (sender : Str) : Str :=
  let afterLt := lastStr (splitOnChar '<' sender)
  if hasChar '<' sender && hasChar '>' afterLt then
    afterLt.takeWhile (fun c => !(c == '>'))
  else sender

/-! ## The Gemini calls (src/main.py lines 116-130) -/

/-- The external oracles: `llm` is `llm.invoke` (`none` = the provider
raised, which the script catches). -/
structure Env where
  llm : Str → Option Str

/-- `summarize_email(email_snippet)` (lines 116-122): never raises; on a
provider error it returns the sentinel text. -/
def summarize_email (env : Env) (snippet : Str) : Str :=
  match env.llm (str "Summarize this email snippet in 2 sentences:\n\n" ++ snippet) with
  | some t => strTrim t
  | none => str "Error summarizing email."

/-- `generate_reply(email_snippet, user_instruction)` (lines 124-130). -/
def generate_reply (env : Env) (snippet instructionText : Str) : Str :=
  match env.llm (instructionText ++ str "\n\nEmail snippet:\n" ++ snippet
      ++ str "\n\nWrite a professional reply:") with
  | some t => strTrim t
  | none => str "Error generating reply."

/-! ## Session state and the per-rerun loop (src/main.py lines 199-252) -/

/-- Lookup in an association list (a Python dict up to
lookup-equivalence). -/
def alookup (k : Str) : List (Str × Str) → Option Str
  | [] => none
  | p :: rest => if p.1 == k then some p.2 else alookup k rest

/-- Python `del d[k]`. -/
def aerase (k : Str) (l : List (Str × Str)) : List (Str × Str) :=
  l.filter (fun p => !(p.1 == k))

/-- Python `d[k] = v`. -/
def aset (k v : Str) (l : List (Str × Str)) : List (Str × Str) :=
  (k, v) :: aerase k l

/-- The cached per-message texts in `st.session_state`: the `summary_{id}`
and `reply_{id}` entries. -/
structure Session where
  summaries : List (Str × Str)
  replies : List (Str × Str)
deriving DecidableEq

/-- The one button (if any) the user pressed for this rerun; Streamlit
reports at most one pressed button per rerun. -/
inductive UserAction
  | noAct
  | send (mid : Str)
  | skip (mid : Str)
  | refreshReply (mid : Str)
deriving DecidableEq

/-- Everything one rerun of the script depends on besides `Session` and
`Gmail`: the pressed button, the injected RPC outcomes, and the current
values of the three text widgets, per message id. -/
structure RunInput where
  action : UserAction
  rpc : RpcBehavior
  details : Str → Str
  instruction : Str → Str
  edited : Str → Str

/-- Lines 215-218: fill the `summary_{id}` cache entry iff it is absent. -/
def fillSummary (env : Env) (e : Email) (s : Session) : Session :=
  match alookup e.id s.summaries with
  | some _ => s
  | none => { s with summaries := aset e.id (summarize_email env e.snippet) s.summaries }

/-- Lines 225-228: fill the `reply_{id}` cache entry iff it is absent, from
the current instruction and details widgets. -/
def fillReply (env : Env) (inp : RunInput) (e : Email) (s : Session) : Session :=
  match alookup e.id s.replies with
  | some _ => s
  | none =>
    let promptText := inp.instruction e.id ++ str "\n\nUser details: " ++ inp.details e.id
    { s with replies := aset e.id (generate_reply env e.snippet promptText) s.replies }

/-- Lines 214-228: the summary entry is filled first, then the reply entry,
each if and only if it is absent. -/
def fillCaches (env : Env) (inp : RunInput) (e : Email) (s : Session) : Session :=
  fillReply env inp e (fillSummary env e s)

/-- The three button handlers (lines 233-249), dispatched on whether the
pressed button belongs to this email.  Send: resolve the recipient, call
`send_email` with the current edit-box text, and on success delete both
cache entries; on a raise the state reached so far is kept and the
exception propagates.  Skip: display only.  Refresh: recompute and
overwrite both cache entries. -/
def handleAction (env : Env) (inp : RunInput) (e : Email) (s : Session) (g : Gmail) :
    Session × Gmail × Option PyExn :=
  match inp.action with
  | .noAct => (s, g, none)
  | .skip _ => (s, g, none)
  | .send mid =>
    if mid == e.id then
      let toAddr := toEmail e.sender
      match send_email inp.rpc g toAddr e.subject (inp.edited e.id) e.threadId with
      | (g2, some ex) => (s, g2, some ex)
      | (g2, none) =>
        ({ summaries := aerase e.id s.summaries, replies := aerase e.id s.replies },
          g2, none)
    else (s, g, none)
  | .refreshReply mid =>
    if mid == e.id then
      let s1 := { s with summaries := aset e.id (summarize_email env e.snippet) s.summaries }
      let promptText := inp.instruction e.id ++ str "\n\nUser details: " ++ inp.details e.id
      ({ s1 with replies := aset e.id (generate_reply env e.snippet promptText) s1.replies },
        g, none)
    else (s, g, none)

/-- `get_unread_emails(service)` (lines 94-114): the snapshots of the
messages carrying UNREAD, capped by `maxResults=10`. -/
def listUnread (g : Gmail) : List Email :=
  (g.inbox.filter (fun e => decide (e.id ∈ g.unreadIds))).take 10

/-- The per-email loop of lines 208-249.  A raised exception aborts the
rest of the loop (the whole loop body sits inside the `try` of line 201)
and is the value the outer `except` displays. -/
def runEmails (env : Env) (inp : RunInput) :
    List Email → Session → Gmail → Session × Gmail × Option PyExn
  | [], s, g => (s, g, none)
  | e :: rest, s, g =>
    let s1 := fillCaches env inp e s
    match handleAction env inp e s1 g with
    | (s2, g2, some ex) => (s2, g2, some ex)
    | (s2, g2, none) => runEmails env inp rest s2 g2

/-- One rerun of the connected script: list the unread messages once, then
run the loop. -/
def runOnce (env : Env) (inp : RunInput) (s : Session) (g : Gmail) :
    Session × Gmail × Option PyExn :=
  runEmails env inp (listUnread g) s g

/-- A user session: one rerun per interaction. -/
def runTrace (env : Env) : List RunInput → Session → Gmail → Session × Gmail
  | [], s, g => (s, g)
  | inp :: rest, s, g =>
    let r := runOnce env inp s g
    runTrace env rest r.1 r.2.1

/-- A message id and thread is consumed for the session: no cache entry for
the id, and no unread message with that id or in that thread, so nothing in
a later rerun can list, recompute or resend it. -/
def Terminal (mid tid : Str) (s : Session) (g : Gmail) : Prop :=
  alookup mid s.summaries = none ∧ alookup mid s.replies = none ∧
  ∀ e ∈ g.inbox, e.id ∈ g.unreadIds → e.id ≠ mid ∧ e.threadId ≠ tid

/-- The send RPCs the backend accepted for a given thread. -/
def sendsFor (g : Gmail) (tid : Str) : List SendReq :=
  g.sendLog.filter (fun r => r.threadId == tid)

/-! ## The interactive authorization flow (src/main.py lines 61-92) -/

/-- The auth-related `st.session_state` slots: the session credential, the
pending authorization URL, the pending `InstalledAppFlow` object (modelled
by an allocation number), and the `auth_started` flag. -/
structure AuthState where
  creds : Option Credential
  authUrl : Option Str
  flow : Option Nat
  authStarted : Bool
deriving DecidableEq

/-- The authorization URL generated by flow object number `h` (each flow
object produces its own URL). -/
def authUrlOf (h : Nat) : Str := str "auth-url-" ++ natToStr h

/-- `authenticate_manual()` (lines 61-92).  `exchange h code` is the
outcome of `flow.fetch_token(code)` on flow object `h`; `nextHandle`
numbers the next `InstalledAppFlow` allocation; `code` is the text-input
value (`""` is falsy, so no exchange is attempted).  Returns the new auth
state, the next allocation number, and the Python return value. -/
def authenticate_manual (exchange : Nat → Str → Except PyExn Credential)
    (code : Str) (st : AuthState) (nextHandle : Nat) :
    AuthState × Nat × Bool :=
  let p :=
    match st.flow with
    | none =>
      ({ st with flow := some nextHandle, authUrl := some (authUrlOf nextHandle) },
        nextHandle + 1)
    | some _ => (st, nextHandle)
  if code.isEmpty then (p.1, p.2, false)
  else
    match p.1.flow with
    | none => (p.1, p.2, false)
    | some h =>
      match exchange h code with
      | .ok c =>
        ({ creds := some c, authUrl := none, flow := none, authStarted := false },
          p.2, true)
      | .error _ => (p.1, p.2, false)

/-! ## Concrete fixtures used by witnesses and counterexamples -/

/-- A drafting backend whose provider always raises (the script substitutes
its sentinel texts). -/
def env0 : Env := ⟨fun _ => none⟩

/-- One unread message in its own thread. -/
def m1 : Email := ⟨str "m1", str "t1", str "Hi", str "a@b.c", str "hello"⟩

/-- A backend holding only `m1`, unread, with no labels and nothing sent. -/
def g0 : Gmail := ⟨[m1], [str "m1"], [], [], []⟩

/-- An empty session cache. -/
def s0 : Session := ⟨[], []⟩

/-- Press Send on `m1`; the send RPC succeeds but the unread-removal RPC
raises. -/
def inpPartial : RunInput :=
  ⟨.send (str "m1"), ⟨false, true, false, false⟩,
    fun _ => [], fun _ => [], fun _ => str "reply"⟩

/-- Press Send on `m1`; every RPC succeeds. -/
def inpAll : RunInput :=
  ⟨.send (str "m1"), .allOk, fun _ => [], fun _ => [], fun _ => str "reply"⟩

/-- Press Send on `m1`; the send RPC itself raises. -/
def inpSendFail : RunInput :=
  ⟨.send (str "m1"), ⟨true, false, false, false⟩,
    fun _ => [], fun _ => [], fun _ => str "reply"⟩

/-- An expired credential carrying a refresh token. -/
def cExpired : Credential := ⟨false, true, some (str "tok")⟩

/-- The credential the identity backend returns from a successful refresh. -/
def cFresh : Credential := ⟨true, false, some (str "tok")⟩

/-- A refresh round-trip that raises. -/
def rfFail : Credential → Except PyExn Credential :=
  fun _ => .error PyExn.refreshFailure

/-- A refresh round-trip that succeeds with `cFresh`. -/
def rfOk : Credential → Except PyExn Credential := fun _ => .ok cFresh

/-- A backend already holding a label whose name differs from "Replied" only
in case. -/
def gLabels : Gmail := ⟨[], [], [(str "replied", str "L1")], [], []⟩

/-- A backend already holding a label named exactly "Replied". -/
def gLabelExact : Gmail := ⟨[], [], [(str "Replied", str "L1")], [], []⟩

/-- A code exchange that always raises. -/
def exchangeFail : Nat → Str → Except PyExn Credential :=
  fun _ _ => .error PyExn.exchangeFailure

/-- Auth session state before any flow object exists. -/
def authSt0 : AuthState := ⟨none, none, none, true⟩

/-- Auth session state holding pending flow object number 0 and its URL. -/
def authStFlow0 : AuthState := ⟨none, some (authUrlOf 0), some 0, true⟩

/-! ## Association-list lemmas -/

theorem alookup_aerase_self (k : Str) (l : List (Str × Str)) :
    alookup k (aerase k l) = none := by
  induction l with
  | nil => rfl
  | cons p rest ih =>
    cases h : (p.1 == k) with
    | false => simpa [aerase, List.filter_cons, h, alookup] using ih
    | true => simpa [aerase, List.filter_cons, h, alookup] using ih

theorem alookup_aerase_ne {k mid : Str} (h : ¬ k = mid) (l : List (Str × Str)) :
    alookup mid (aerase k l) = alookup mid l := by
  induction l with
  | nil => rfl
  | cons p rest ih =>
    have ih2 : alookup mid (List.filter (fun q => !(q.1 == k)) rest)
        = alookup mid rest := by simpa [aerase] using ih
    have hmk : ¬ mid = k := fun hh => h hh.symm
    by_cases hk : p.1 = k <;> by_cases hm : p.1 = mid
    · exact absurd (hk.symm.trans hm) h
    · simp [aerase, List.filter_cons, alookup, hk, hm, ih2, beq_iff_eq, h, hmk]
    · simp [aerase, List.filter_cons, alookup, hk, hm, ih2, beq_iff_eq, h, hmk]
    · simp [aerase, List.filter_cons, alookup, hk, hm, ih2, beq_iff_eq, h, hmk]

theorem alookup_aset_self (k v : Str) (l : List (Str × Str)) :
    alookup k (aset k v l) = some v := by
  simp [aset, alookup]

theorem alookup_aset_ne {k mid : Str} (h : ¬ k = mid) (v : Str)
    (l : List (Str × Str)) :
    alookup mid (aset k v l) = alookup mid l := by
  have hk : (k == mid) = false := by
    simp only [beq_eq_false_iff_ne, ne_eq]; exact h
  simp [aset, alookup, hk, alookup_aerase_ne h]

/-! ## String-operation lemmas -/

theorem hasChar_append (x : Char) (l r : Str) :
    hasChar x (l ++ r) = (hasChar x l || hasChar x r) := by
  induction l with
  | nil => simp [hasChar]
  | cons c cs ih => simp [hasChar, ih, Bool.or_assoc]

theorem splitOnChar_ne_nil (sep : Char) (l : Str) : splitOnChar sep l ≠ [] := by
  cases l with
  | nil => simp [splitOnChar]
  | cons c cs =>
    unfold splitOnChar
    rcases splitOnChar sep cs with _ | ⟨h, t⟩
    · simp
    · by_cases hc : (c == sep) = true <;> simp [hc]

theorem splitOnChar_of_not_mem {sep : Char} {l : Str}
    (h : hasChar sep l = false) : splitOnChar sep l = [l] := by
  induction l with
  | nil => rfl
  | cons c cs ih =>
    rw [hasChar, Bool.or_eq_false_iff] at h
    rw [splitOnChar, ih h.2]
    simp [h.1]

theorem splitOnChar_length_ge {sep : Char} {l : Str}
    (h : hasChar sep l = true) : 2 ≤ (splitOnChar sep l).length := by
  induction l with
  | nil => simp [hasChar] at h
  | cons c cs ih =>
    rw [hasChar, Bool.or_eq_true_iff] at h
    rw [splitOnChar]
    rcases hs : splitOnChar sep cs with _ | ⟨h1, t1⟩
    · exact absurd hs (splitOnChar_ne_nil sep cs)
    · rcases h with hc | hcs
      · simp [hc]
      · have := ih hcs
        rw [hs] at this
        by_cases hc : (c == sep) = true <;> simpa [hc] using this

theorem lastStr_cons_of_ne_nil {xs : List Str} (h : xs ≠ []) (a : Str) :
    lastStr (a :: xs) = lastStr xs := by
  rcases xs with _ | ⟨b, t⟩
  · exact absurd rfl h
  · rfl

theorem lastStr_splitOnChar_append {sep : Char} (l : Str) {r : Str}
    (h : hasChar sep r = true) :
    lastStr (splitOnChar sep (l ++ r)) = lastStr (splitOnChar sep r) := by
  induction l with
  | nil => rfl
  | cons c cs ih =>
    have hlr : hasChar sep (cs ++ r) = true := by
      rw [hasChar_append, h, Bool.or_true]
    have hlen := splitOnChar_length_ge hlr
    rcases hs : splitOnChar sep (cs ++ r) with _ | ⟨h1, t1⟩
    · exact absurd hs (splitOnChar_ne_nil sep _)
    · have ht1 : t1 ≠ [] := by
        rw [hs] at hlen
        intro hh
        rw [hh] at hlen
        simp at hlen
      rw [hs] at ih
      have hstep : splitOnChar sep ((c :: cs) ++ r) =
          if (c == sep) = true then [] :: h1 :: t1 else (c :: h1) :: t1 := by
        rw [List.cons_append, splitOnChar, hs]
      by_cases hc : (c == sep) = true
      · rw [hstep, if_pos hc, lastStr_cons_of_ne_nil (List.cons_ne_nil h1 t1)]
        exact ih
      · rw [hstep, if_neg hc, lastStr_cons_of_ne_nil ht1,
          ← lastStr_cons_of_ne_nil ht1 h1]
        exact ih

theorem removeChar_of_not_mem {x : Char} {l : Str}
    (h : hasChar x l = false) : removeChar x l = l := by
  induction l with
  | nil => rfl
  | cons c cs ih =>
    rw [hasChar, Bool.or_eq_false_iff] at h
    have ih2 : List.filter (fun d => !(d == x)) cs = cs := by
      simpa [removeChar] using ih h.2
    simp [removeChar, List.filter_cons, h.1, ih2]

/-! ## Inbox lookup -/

theorem threadOfId_of_nodup {inbox : List Email}
    (hnd : (inbox.map Email.id).Nodup) {e : Email} (he : e ∈ inbox) :
    threadOfId inbox e.id = some e.threadId := by
  induction inbox with
  | nil => cases he
  | cons b rest ih =>
    rw [List.map_cons, List.nodup_cons] at hnd
    rcases List.mem_cons.mp he with rfl | hmem
    · rw [threadOfId, List.find?_cons_of_pos _ (by simp)]
      rfl
    · have hb : (b.id == e.id) = false := by
        apply beq_eq_false_iff_ne.mpr
        intro hbe
        exact hnd.1 (hbe ▸ List.mem_map_of_mem Email.id hmem)
      have hrest := ih hnd.2 hmem
      rw [threadOfId] at hrest ⊢
      rw [List.find?_cons_of_neg _ (by simp [hb])]
      exact hrest

/-! ## Frame lemmas for the backend operations -/

theorem get_or_create_label_frame (rpc : RpcBehavior) (g : Gmail) (n : Str) :
    (get_or_create_label rpc g n).1.inbox = g.inbox ∧
    (get_or_create_label rpc g n).1.unreadIds = g.unreadIds ∧
    (get_or_create_label rpc g n).1.threadLabels = g.threadLabels ∧
    (get_or_create_label rpc g n).1.sendLog = g.sendLog := by
  rcases hfind : g.labels.find? (fun l => l.1 == n) with _ | l
  · by_cases h : rpc.createLabelFails = true <;>
      simp [get_or_create_label, hfind, h]
  · simp [get_or_create_label, hfind]

theorem applyReplied_frame (rpc : RpcBehavior) (tid : Str) (g : Gmail) :
    (applyReplied rpc tid g).1.inbox = g.inbox ∧
    (applyReplied rpc tid g).1.unreadIds = g.unreadIds ∧
    (applyReplied rpc tid g).1.sendLog = g.sendLog := by
  have hf := get_or_create_label_frame rpc g (str "Replied")
  rcases hg : get_or_create_label rpc g (str "Replied") with ⟨g3, res⟩
  rw [hg] at hf
  rw [applyReplied, hg]
  rcases res with e | lid
  · exact ⟨hf.1, hf.2.1, hf.2.2.2⟩
  · by_cases h4 : rpc.addLabelFails = true
    · simp only [h4, if_true]
      exact ⟨hf.1, hf.2.1, hf.2.2.2⟩
    · simp only [h4, if_false, Bool.false_eq_true]
      exact ⟨hf.1, hf.2.1, hf.2.2.2⟩

theorem send_email_frame (rpc : RpcBehavior) (g : Gmail) (a b c d : Str) :
    (send_email rpc g a b c d).1.inbox = g.inbox ∧
    (∀ x ∈ (send_email rpc g a b c d).1.unreadIds, x ∈ g.unreadIds) ∧
    ((send_email rpc g a b c d).1.sendLog = g.sendLog ∨
      (send_email rpc g a b c d).1.sendLog
        = g.sendLog ++ [⟨a, replySubject b, c, d⟩]) := by
  cases h1 : rpc.sendFails with
  | true => simp [send_email, h1]
  | false =>
    cases h2 : rpc.removeUnreadFails with
    | true => simp [send_email, h1, h2]
    | false =>
      have hA := applyReplied_frame rpc d
        (dropUnreadThread
          { g with sendLog := g.sendLog ++ [⟨a, replySubject b, c, d⟩] } d)
      have heq : send_email rpc g a b c d
          = applyReplied rpc d
              (dropUnreadThread
                { g with sendLog := g.sendLog ++ [⟨a, replySubject b, c, d⟩] } d) := by
        rw [send_email]
        simp [h1, h2]
      rw [heq]
      refine ⟨?_, ?_, Or.inr ?_⟩
      · rw [hA.1]; rfl
      · intro x hx
        rw [hA.2.1] at hx
        exact (List.mem_filter.mp hx).1
      · rw [hA.2.2]; rfl

/-! ## Preservation lemmas for the per-rerun loop -/

theorem fillSummary_alookup (env : Env) (e : Email) {mid : Str} (s : Session)
    (h : ¬ e.id = mid) :
    alookup mid (fillSummary env e s).summaries = alookup mid s.summaries ∧
    (fillSummary env e s).replies = s.replies := by
  rw [fillSummary]
  rcases alookup e.id s.summaries with _ | v
  · exact ⟨alookup_aset_ne h _ _, rfl⟩
  · exact ⟨rfl, rfl⟩

theorem fillReply_alookup (env : Env) (inp : RunInput) (e : Email) {mid : Str}
    (s : Session) (h : ¬ e.id = mid) :
    alookup mid (fillReply env inp e s).replies = alookup mid s.replies ∧
    (fillReply env inp e s).summaries = s.summaries := by
  rw [fillReply]
  rcases alookup e.id s.replies with _ | v
  · exact ⟨alookup_aset_ne h _ _, rfl⟩
  · exact ⟨rfl, rfl⟩

theorem fillCaches_alookup (env : Env) (inp : RunInput) (e : Email) {mid : Str}
    (s : Session) (h : ¬ e.id = mid) :
    alookup mid (fillCaches env inp e s).summaries = alookup mid s.summaries ∧
    alookup mid (fillCaches env inp e s).replies = alookup mid s.replies := by
  have h1 := fillSummary_alookup env e s h
  have h2 := fillReply_alookup env inp e (fillSummary env e s) h
  constructor
  · rw [fillCaches, h2.2, h1.1]
  · rw [fillCaches, h2.1, h1.2]

theorem handleAction_preserve (env : Env) (inp : RunInput) (e : Email)
    {mid tid : Str} (s : Session) (g : Gmail)
    (h1 : ¬ e.id = mid) (h2 : ¬ e.threadId = tid) :
    alookup mid (handleAction env inp e s g).1.summaries = alookup mid s.summaries ∧
    alookup mid (handleAction env inp e s g).1.replies = alookup mid s.replies ∧
    (handleAction env inp e s g).2.1.inbox = g.inbox ∧
    (∀ x ∈ (handleAction env inp e s g).2.1.unreadIds, x ∈ g.unreadIds) ∧
    sendsFor (handleAction env inp e s g).2.1 tid = sendsFor g tid := by
  rcases inp with ⟨act, rpc, det, ins, ed⟩
  cases act with
  | noAct => exact ⟨rfl, rfl, rfl, fun x hx => hx, rfl⟩
  | skip mid2 => exact ⟨rfl, rfl, rfl, fun x hx => hx, rfl⟩
  | refreshReply mid2 =>
    by_cases hm : (mid2 == e.id) = true
    · have heq : handleAction env ⟨.refreshReply mid2, rpc, det, ins, ed⟩ e s g
          = ({ summaries := aset e.id (summarize_email env e.snippet) s.summaries,
               replies := aset e.id (generate_reply env e.snippet
                 (ins e.id ++ str "\n\nUser details: " ++ det e.id)) s.replies },
              g, none) := by
        simp [handleAction, hm]
      rw [heq]
      exact ⟨alookup_aset_ne h1 _ _, alookup_aset_ne h1 _ _, rfl, fun x hx => hx, rfl⟩
    · have heq : handleAction env ⟨.refreshReply mid2, rpc, det, ins, ed⟩ e s g
          = (s, g, none) := by
        simp [handleAction, hm]
      rw [heq]
      exact ⟨rfl, rfl, rfl, fun x hx => hx, rfl⟩
  | send mid2 =>
    by_cases hm : (mid2 == e.id) = true
    · have hse := send_email_frame rpc g (toEmail e.sender) e.subject (ed e.id) e.threadId
      rcases hres : send_email rpc g (toEmail e.sender) e.subject (ed e.id) e.threadId
        with ⟨g2, ex⟩
      rw [hres] at hse
      have hb : (e.threadId == tid) = false := beq_eq_false_iff_ne.mpr h2
      have hlog : sendsFor g2 tid = sendsFor g tid := by
        rcases hse.2.2 with hl | hl
        · rw [sendsFor, sendsFor, hl]
        · have hrec : (List.filter (fun r => r.threadId == tid)
              [(⟨toEmail e.sender, replySubject e.subject, ed e.id, e.threadId⟩ : SendReq)])
              = [] := by
            simp [List.filter, hb]
          rw [sendsFor, sendsFor, hl, List.filter_append, hrec, List.append_nil]
      cases ex with
      | none =>
        have heq : handleAction env ⟨.send mid2, rpc, det, ins, ed⟩ e s g
            = ({ summaries := aerase e.id s.summaries,
                 replies := aerase e.id s.replies }, g2, none) := by
          simp [handleAction, hm, hres]
        rw [heq]
        exact ⟨alookup_aerase_ne h1 _, alookup_aerase_ne h1 _, hse.1, hse.2.1, hlog⟩
      | some ex =>
        have heq : handleAction env ⟨.send mid2, rpc, det, ins, ed⟩ e s g
            = (s, g2, some ex) := by
          simp [handleAction, hm, hres]
        rw [heq]
        exact ⟨rfl, rfl, hse.1, hse.2.1, hlog⟩
    · have heq : handleAction env ⟨.send mid2, rpc, det, ins, ed⟩ e s g
          = (s, g, none) := by
        simp [handleAction, hm]
      rw [heq]
      exact ⟨rfl, rfl, rfl, fun x hx => hx, rfl⟩

theorem runEmails_preserve (env : Env) (inp : RunInput) (mid tid : Str) :
    ∀ (es : List Email) (s : Session) (g : Gmail),
      (∀ e ∈ es, ¬ e.id = mid ∧ ¬ e.threadId = tid) →
      alookup mid (runEmails env inp es s g).1.summaries = alookup mid s.summaries ∧
      alookup mid (runEmails env inp es s g).1.replies = alookup mid s.replies ∧
      (runEmails env inp es s g).2.1.inbox = g.inbox ∧
      (∀ x ∈ (runEmails env inp es s g).2.1.unreadIds, x ∈ g.unreadIds) ∧
      sendsFor (runEmails env inp es s g).2.1 tid = sendsFor g tid := by
  intro es
  induction es with
  | nil => intro s g _; exact ⟨rfl, rfl, rfl, fun x hx => hx, rfl⟩
  | cons e rest ih =>
    intro s g h
    have he := h e (List.mem_cons_self e rest)
    have hfill := fillCaches_alookup env inp e s he.1
    have hhand := handleAction_preserve env inp e (fillCaches env inp e s) g he.1 he.2
    rcases hh : handleAction env inp e (fillCaches env inp e s) g with ⟨s2, g2, ex⟩
    rw [hh] at hhand
    cases ex with
    | some ex =>
      have heq : runEmails env inp (e :: rest) s g = (s2, g2, some ex) := by
        simp only [runEmails]
        rw [hh]
      rw [heq]
      refine ⟨?_, ?_, hhand.2.2.1, hhand.2.2.2.1, hhand.2.2.2.2⟩
      · rw [hhand.1, hfill.1]
      · rw [hhand.2.1, hfill.2]
    | none =>
      have heq : runEmails env inp (e :: rest) s g = runEmails env inp rest s2 g2 := by
        simp only [runEmails]
        rw [hh]
      have hrest := ih s2 g2 (fun e2 hm2 => h e2 (List.mem_cons_of_mem e hm2))
      rw [heq]
      refine ⟨?_, ?_, ?_, ?_, ?_⟩
      · rw [hrest.1, hhand.1, hfill.1]
      · rw [hrest.2.1, hhand.2.1, hfill.2]
      · rw [hrest.2.2.1, hhand.2.2.1]
      · intro x hx
        exact hhand.2.2.2.1 x (hrest.2.2.2.1 x hx)
      · rw [hrest.2.2.2.2, hhand.2.2.2.2]

theorem runTrace_terminal (env : Env) (mid tid : Str) :
    ∀ (inps : List RunInput) (s : Session) (g : Gmail),
      Terminal mid tid s g →
      Terminal mid tid (runTrace env inps s g).1 (runTrace env inps s g).2 ∧
      sendsFor (runTrace env inps s g).2 tid = sendsFor g tid := by
  intro inps
  induction inps with
  | nil => intro s g h; exact ⟨h, rfl⟩
  | cons inp rest ih =>
    intro s g h
    obtain ⟨hs, hr, hu⟩ := h
    have hlist : ∀ e ∈ listUnread g, ¬ e.id = mid ∧ ¬ e.threadId = tid := by
      intro e he
      have hmem : e ∈ g.inbox.filter (fun e2 => decide (e2.id ∈ g.unreadIds)) :=
        List.take_subset _ _ he
      have hmem2 := List.mem_filter.mp hmem
      exact hu e hmem2.1 (of_decide_eq_true hmem2.2)
    have hrun := runEmails_preserve env inp mid tid (listUnread g) s g hlist
    rcases hr1 : runEmails env inp (listUnread g) s g with ⟨s2, g2, ex⟩
    rw [hr1] at hrun
    have heq : runTrace env (inp :: rest) s g = runTrace env rest s2 g2 := by
      simp only [runTrace, runOnce]
      rw [hr1]
    have hterm2 : Terminal mid tid s2 g2 := by
      refine ⟨?_, ?_, ?_⟩
      · rw [hrun.1]; exact hs
      · rw [hrun.2.1]; exact hr
      · intro e hein heun
        rw [hrun.2.2.1] at hein
        exact hu e hein (hrun.2.2.2.1 e.id heun)
    have hrest := ih s2 g2 hterm2
    rw [heq]
    exact ⟨hrest.1, by rw [hrest.2, hrun.2.2.2.2]⟩

/-! ## The fully successful send path -/

theorem get_or_create_label_no_fail (rpc : RpcBehavior) (g : Gmail) (n : Str)
    (h : rpc.createLabelFails = false) :
    ∀ e, ¬ (get_or_create_label rpc g n).2 = .error e := by
  intro e
  rcases hfind : g.labels.find? (fun l => l.1 == n) with _ | l
  · simp [get_or_create_label, hfind, h]
  · simp [get_or_create_label, hfind]

theorem applyReplied_allOk (d : Str) (g : Gmail) :
    (applyReplied RpcBehavior.allOk d g).2 = none ∧
    (applyReplied RpcBehavior.allOk d g).1.inbox = g.inbox ∧
    (applyReplied RpcBehavior.allOk d g).1.unreadIds = g.unreadIds := by
  have hf := get_or_create_label_frame RpcBehavior.allOk g (str "Replied")
  rcases hg : get_or_create_label RpcBehavior.allOk g (str "Replied") with ⟨g3, res⟩
  rw [hg] at hf
  rcases res with e | lid
  · exact absurd (by rw [hg])
      (get_or_create_label_no_fail RpcBehavior.allOk g (str "Replied") rfl e)
  · have happ : applyReplied RpcBehavior.allOk d g
        = ({ g3 with threadLabels := g3.threadLabels ++ [(d, lid)] }, none) := by
      rw [applyReplied, hg]
      rfl
    rw [happ]
    exact ⟨rfl, hf.1, hf.2.1⟩

theorem send_email_allOk (g : Gmail) (a b c d : Str) :
    (send_email RpcBehavior.allOk g a b c d).2 = none ∧
    (send_email RpcBehavior.allOk g a b c d).1.inbox = g.inbox ∧
    (send_email RpcBehavior.allOk g a b c d).1.unreadIds
      = g.unreadIds.filter (fun i => !(threadOfId g.inbox i == some d)) := by
  have heq : send_email RpcBehavior.allOk g a b c d
      = applyReplied RpcBehavior.allOk d
          (dropUnreadThread
            { g with sendLog := g.sendLog ++ [⟨a, replySubject b, c, d⟩] } d) := by
    rw [send_email]
    rfl
  have hA := applyReplied_allOk d
    (dropUnreadThread
      { g with sendLog := g.sendLog ++ [⟨a, replySubject b, c, d⟩] } d)
  rw [heq]
  exact ⟨hA.1, hA.2.1.trans rfl, hA.2.2.trans rfl⟩

/-! ## The "Re: " prefix is itself recognised -/

theorem beginsWith_lower_re (s : Str) :
    beginsWith (lowerStr (str "Re: " ++ s)) (str "re:") = true := by
  show beginsWith (List.map Char.toLower ('R' :: 'e' :: ':' :: ' ' :: s))
      ('r' :: 'e' :: [':']) = true
  simp [beginsWith, List.map_cons]

/-! ## Claim C5 -/

/-- Claim C5, counterexample: on a corrupt store `load_creds` does not
return absent; `pickle.load` raises and the exception propagates to the
caller, refuting "load() never raises to its caller". -/
theorem C5_load_corrupt_cex :
    load_creds Store.corrupt = .error PyExn.unpicklingError ∧
    ¬ load_creds Store.corrupt = .ok none :=
  ⟨rfl, fun h => Except.noConfusion h⟩

/-- Claim C5 (amended): `load_creds` returns absent on a missing store, but
on a corrupt store the `pickle.load` exception propagates to the caller;
a successfully unpickled blob is returned as is, with no validation of its
internal structure. -/
theorem C5_load_amended :
    load_creds Store.missing = .ok none ∧
    load_creds Store.corrupt = .error PyExn.unpicklingError ∧
    ∀ c : Credential, load_creds (Store.stored c) = .ok (some c) :=
  ⟨rfl, rfl, fun _ => rfl⟩

/-! ## Claim C10 -/

/-- Claim C10: `creds_valid` applied to an absent credential returns a falsy
value without raising: the Python `and` short-circuits (a direct `.valid`
attribute access on `None` would raise, as `attrValid` shows), so startup
with no persisted token yields no session credential and routes to the
connect path. -/
theorem C10_absent_credential_total :
    creds_valid none = .ok false ∧
    attrValid none = .error PyExn.attributeError ∧
    (∀ rf : Credential → Except PyExn Credential,
      startupFlow none rf = .ok (none, none)) ∧
    uiRoute none = Route.connectPath :=
  ⟨rfl, rfl, fun _ => rfl, rfl⟩

/-! ## Claim C4 -/

/-- Claim C4, counterexample: with a persisted expired credential carrying a
refresh token, a failing refresh round-trip makes the module-level startup
propagate the exception uncaught (the app crashes); it does not fall back
to the authorization flow (which would be the not-connected outcome). -/
theorem C4_refresh_crash_cex :
    startupFlow (some cExpired) rfFail = .error PyExn.refreshFailure ∧
    ¬ startupFlow (some cExpired) rfFail = .ok (none, none) := by
  constructor
  · rfl
  · intro h
    exact Except.noConfusion h

/-- Claim C4 (amended): an expired credential with a refresh token whose
refresh succeeds yields a connected session with the refreshed credential,
which is also persisted; an expired credential with no (falsy) refresh
token yields no session credential, routing to the connect/authorization
path; but a failing refresh propagates its exception uncaught instead of
falling back to the authorization flow. -/
theorem C4_credential_startup_amended (c c2 : Credential)
    (rf : Credential → Except PyExn Credential)
    (hv : c.valid = false) (he : c.expired = true)
    (ht : pyTruthyStr c.refreshToken = true) (hok : rf c = .ok c2) :
    startupFlow (some c) rf = .ok (some c2, some c2) ∧
    (∀ c3 : Credential, c3.valid = false → pyTruthyStr c3.refreshToken = false →
      startupFlow (some c3) rf = .ok (none, none) ∧
        uiRoute none = Route.connectPath) ∧
    (∀ (c4 : Credential) (e : PyExn), c4.valid = false → c4.expired = true →
      pyTruthyStr c4.refreshToken = true → rf c4 = .error e →
      startupFlow (some c4) rf = .error e) := by
  refine ⟨?_, ?_, ?_⟩
  · simp [startupFlow, creds_valid, attrValid, hv, he, ht, hok, Bind.bind,
      Except.bind, Pure.pure, Except.pure]
  · intro c3 hv3 ht3
    refine ⟨?_, rfl⟩
    simp [startupFlow, creds_valid, attrValid, hv3, ht3, Bind.bind, Except.bind, Pure.pure, Except.pure]
  · intro c4 e hv4 he4 ht4 herr
    simp [startupFlow, creds_valid, attrValid, hv4, he4, ht4, herr, Bind.bind,
      Except.bind, Pure.pure, Except.pure]

/-- Claim C4, witness: the amended theorem applied to the concrete expired
credential and a succeeding refresh. -/
theorem C4_credential_startup_witness :
    startupFlow (some cExpired) rfOk = .ok (some cFresh, some cFresh) :=
  (C4_credential_startup_amended cExpired cFresh rfOk rfl rfl rfl rfl).1

/-! ## Claim C6 -/

/-- Claim C6, counterexample: with an existing label "replied", requesting
"Replied" does not return the existing id; the exact-match scan misses it
and a second label is created, leaving two labels whose names differ only
in case — refuting the case-insensitive match and the at-most-one
consequence. -/
theorem C6_label_case_cex :
    (get_or_create_label RpcBehavior.allOk gLabels (str "Replied")).1.labels
      = [(str "replied", str "L1"), (str "Replied", str "Label_1")] ∧
    lowerStr (str "replied") = lowerStr (str "Replied") ∧
    (get_or_create_label RpcBehavior.allOk gLabels (str "Replied")).2
      = .ok (str "Label_1") ∧
    ¬ (str "Label_1" = str "L1") :=
  ⟨by decide, by decide, rfl, by decide⟩

/-- Claim C6 (amended): `get_or_create_label` matches the requested name
against existing labels by exact, case-sensitive string equality (first
match wins), returning the existing id on an exact match and creating the
label only when no exact match exists — so labels differing only in case
can coexist. -/
theorem C6_label_match_amended (rpc : RpcBehavior) (g : Gmail) (nm : Str)
    (p : Str × Str)
    (hfind : g.labels.find? (fun l => l.1 == nm) = some p) :
    get_or_create_label rpc g nm = (g, .ok p.2) ∧
    (∀ g2 : Gmail, g2.labels.find? (fun l => l.1 == nm) = none →
      rpc.createLabelFails = false →
      get_or_create_label rpc g2 nm =
        ({ g2 with
            labels := g2.labels ++ [(nm, str "Label_" ++ natToStr g2.labels.length)] },
          .ok (str "Label_" ++ natToStr g2.labels.length))) := by
  constructor
  · rw [get_or_create_label, hfind]
  · intro g2 hnone hcf
    rw [get_or_create_label, hnone]
    simp [hcf]

/-- Claim C6, witness: the amended theorem applied to a backend holding an
exactly matching label. -/
theorem C6_label_match_witness :
    get_or_create_label RpcBehavior.allOk gLabelExact (str "Replied")
      = (gLabelExact, .ok (str "L1")) :=
  (C6_label_match_amended RpcBehavior.allOk gLabelExact (str "Replied")
    (str "Replied", str "L1") (by decide)).1

/-! ## Claim C3 -/

/-- Claim C3: when the send RPC itself raises, the send button handler
leaves the session cache untouched (the message stays Drafted with its
summary and draft unchanged), performs no label mutation whatsoever (the
backend state is returned exactly as it was, so neither unread removal nor
"Replied" addition was attempted), and surfaces the exception for display
by the outer handler. -/
theorem C3_send_rpc_failure (env : Env) (inp : RunInput) (e : Email)
    (s : Session) (g : Gmail)
    (hact : inp.action = .send e.id) (hfail : inp.rpc.sendFails = true) :
    handleAction env inp e s g = (s, g, some PyExn.backendError) ∧
    send_email inp.rpc g (toEmail e.sender) e.subject (inp.edited e.id) e.threadId
      = (g, some PyExn.backendError) := by
  have hse : send_email inp.rpc g (toEmail e.sender) e.subject
      (inp.edited e.id) e.threadId = (g, some PyExn.backendError) := by
    rw [send_email, if_pos hfail]
  refine ⟨?_, hse⟩
  rcases inp with ⟨act, rpc, det, ins, ed⟩
  subst hact
  simp [handleAction, hse]

/-- Claim C3, witness: the theorem applied to the concrete drafted message
with a failing send RPC. -/
theorem C3_send_rpc_failure_witness :
    handleAction env0 inpSendFail m1 s0 g0 = (s0, g0, some PyExn.backendError) :=
  (C3_send_rpc_failure env0 inpSendFail m1 s0 g0 rfl rfl).1

/-! ## Claim C2 -/

/-- Claim C2, counterexample: a rerun in which the send RPC succeeds but the
unread-removal RPC fails.  The send is delivered (logged by the backend),
yet the second label mutation is never attempted (no label is looked up or
created and no thread label is applied, although creation would have
succeeded), the message stays unread, the cached summary and draft are NOT
cleared, and the outcome is reported through the generic error handler as a
failure — refuting "both label mutations are attempted" and "reported as
success with a label warning". -/
theorem C2_partial_failure_cex :
    (runOnce env0 inpPartial s0 g0).2.2 = some PyExn.backendError ∧
    (runOnce env0 inpPartial s0 g0).2.1.sendLog
      = [⟨str "a@b.c", str "Re: Hi", str "reply", str "t1"⟩] ∧
    (runOnce env0 inpPartial s0 g0).2.1.labels = [] ∧
    (runOnce env0 inpPartial s0 g0).2.1.threadLabels = [] ∧
    (runOnce env0 inpPartial s0 g0).2.1.unreadIds = [str "m1"] ∧
    ¬ alookup (str "m1") (runOnce env0 inpPartial s0 g0).1.summaries = none ∧
    ¬ alookup (str "m1") (runOnce env0 inpPartial s0 g0).1.replies = none := by
  decide

/-- Claim C2 (amended): when the send RPC succeeds and the unread-removal
RPC then fails, the raised exception aborts `send_email` before the
"Replied" mutation is even attempted: the handler returns the backend state
whose only change is the accepted send, with the session cache unchanged
(so the consumed state is not recorded and a later send for the same
message remains possible), and the exception propagates to the generic
error handler — the user sees an error, not success-with-warning. -/
theorem C2_partial_failure_amended (env : Env) (inp : RunInput) (e : Email)
    (s : Session) (g : Gmail)
    (hact : inp.action = .send e.id)
    (h1 : inp.rpc.sendFails = false) (h2 : inp.rpc.removeUnreadFails = true) :
    handleAction env inp e s g =
      (s,
        { g with sendLog := g.sendLog
            ++ [⟨toEmail e.sender, replySubject e.subject, inp.edited e.id,
                  e.threadId⟩] },
        some PyExn.backendError) := by
  have hse : send_email inp.rpc g (toEmail e.sender) e.subject
      (inp.edited e.id) e.threadId
      = ({ g with sendLog := g.sendLog
            ++ [⟨toEmail e.sender, replySubject e.subject, inp.edited e.id,
                  e.threadId⟩] },
          some PyExn.backendError) := by
    rw [send_email]
    simp [h1, h2]
  rcases inp with ⟨act, rpc, det, ins, ed⟩
  subst hact
  simp [handleAction, hse]

/-- Claim C2, witness: the amended theorem applied to the concrete
partial-failure rerun. -/
theorem C2_partial_failure_witness :
    handleAction env0 inpPartial m1 s0 g0
      = (s0,
          { g0 with sendLog := [⟨str "a@b.c", str "Re: Hi", str "reply", str "t1"⟩] },
          some PyExn.backendError) := by
  have h := C2_partial_failure_amended env0 inpPartial m1 s0 g0 rfl rfl rfl
  exact h.trans (by decide)

/-! ## Claim C8 -/

/-- Claim C8: the subject of an outgoing reply is the original subject
prefixed with "Re: " unless the lowercased subject already starts with
"re:" (the case-insensitive check the code performs), in which case it is
unchanged; the operation is idempotent, so no double prefix can arise, and
every send RPC the backend accepts carries exactly this subject. -/
theorem C8_subject_prefixing :
    replySubject (str "Order #4") = str "Re: Order #4" ∧
    replySubject (str "Re: Order #4") = str "Re: Order #4" ∧
    (∀ s : Str, beginsWith (lowerStr s) (str "re:") = false →
      replySubject s = str "Re: " ++ s) ∧
    (∀ s : Str, beginsWith (lowerStr s) (str "re:") = true →
      replySubject s = s) ∧
    (∀ s : Str, replySubject (replySubject s) = replySubject s) ∧
    (∀ (rpc : RpcBehavior) (g : Gmail) (a b c d : Str), rpc.sendFails = false →
      (send_email rpc g a b c d).1.sendLog
        = g.sendLog ++ [⟨a, replySubject b, c, d⟩]) := by
  have hthen : ∀ s : Str, beginsWith (lowerStr s) (str "re:") = false →
      replySubject s = str "Re: " ++ s := by
    intro s hs
    rw [replySubject, hs]
    rfl
  have helse : ∀ s : Str, beginsWith (lowerStr s) (str "re:") = true →
      replySubject s = s := by
    intro s hs
    rw [replySubject, hs]
    rfl
  refine ⟨by decide, by decide, hthen, helse, ?_, ?_⟩
  · intro s
    cases hs : beginsWith (lowerStr s) (str "re:") with
    | true =>
      rw [helse s hs, helse s hs]
    | false =>
      rw [hthen s hs]
      exact helse (str "Re: " ++ s) (beginsWith_lower_re s)
  · intro rpc g a b c d h1
    cases h2 : rpc.removeUnreadFails with
    | true => simp [send_email, h1, h2]
    | false =>
      have hA := applyReplied_frame rpc d
        (dropUnreadThread
          { g with sendLog := g.sendLog ++ [⟨a, replySubject b, c, d⟩] } d)
      have heq : send_email rpc g a b c d
          = applyReplied rpc d
              (dropUnreadThread
                { g with sendLog := g.sendLog ++ [⟨a, replySubject b, c, d⟩] } d) := by
        rw [send_email]
        simp [h1, h2]
      rw [heq, hA.2.2]
      rfl

/-! ## Claim C9 -/

/-- Claim C9, counterexample: after a failed code exchange, re-entering the
authorization path does not discard the failed flow object: the session
still holds flow object number 0 and its original URL, the allocation
counter shows no new flow object was ever created, and the next exchange
attempt uses the same handle — refuting "start() again allocates a fresh
flow and a fresh URL". -/
theorem C9_flow_reuse_cex :
    (authenticate_manual exchangeFail (str "badcode") authSt0 0).1.flow = some 0 ∧
    (authenticate_manual exchangeFail (str "badcode") authSt0 0).1.authUrl
      = some (authUrlOf 0) ∧
    (authenticate_manual exchangeFail (str "badcode")
        (authenticate_manual exchangeFail (str "badcode") authSt0 0).1
        (authenticate_manual exchangeFail (str "badcode") authSt0 0).2.1).1.flow
      = some 0 ∧
    (authenticate_manual exchangeFail (str "badcode")
        (authenticate_manual exchangeFail (str "badcode") authSt0 0).1
        (authenticate_manual exchangeFail (str "badcode") authSt0 0).2.1).1.authUrl
      = some (authUrlOf 0) ∧
    (authenticate_manual exchangeFail (str "badcode")
        (authenticate_manual exchangeFail (str "badcode") authSt0 0).1
        (authenticate_manual exchangeFail (str "badcode") authSt0 0).2.1).2.1
      = 1 := by
  decide

/-- Claim C9 (amended): while a flow object is pending, `authenticate_manual`
never allocates a fresh one — after a failed exchange the state (including
the failed flow handle and its URL) is returned unchanged and the next
attempt reuses the same handle; a successful exchange resets the flow slot;
a fresh flow object and URL are allocated only when the flow slot is empty
(first entry, or after a success reset it). -/
theorem C9_flow_reuse_amended (ex : Nat → Str → Except PyExn Credential)
    (code : Str) (st : AuthState) (next h : Nat)
    (hflow : st.flow = some h) :
    (authenticate_manual ex code st next).2.1 = next ∧
    (∀ e : PyExn, code.isEmpty = false → ex h code = .error e →
      authenticate_manual ex code st next = (st, next, false)) ∧
    (∀ c : Credential, code.isEmpty = false → ex h code = .ok c →
      authenticate_manual ex code st next
        = (⟨some c, none, none, false⟩, next, true)) ∧
    (∀ st2 : AuthState, st2.flow = none → code.isEmpty = true →
      authenticate_manual ex code st2 next
        = ({ st2 with flow := some next, authUrl := some (authUrlOf next) },
            next + 1, false)) := by
  refine ⟨?_, ?_, ?_, ?_⟩
  · cases hc : code.isEmpty with
    | true => simp [authenticate_manual, hflow, hc]
    | false =>
      rcases hex : ex h code with e | c <;>
        simp [authenticate_manual, hflow, hc, hex]
  · intro e hc hex
    simp [authenticate_manual, hflow, hc, hex]
  · intro c hc hex
    simp [authenticate_manual, hflow, hc, hex]
  · intro st2 hf2 hc
    simp [authenticate_manual, hf2, hc]

/-- Claim C9, witness: the amended theorem applied to a session holding
pending flow object 0; no fresh allocation happens. -/
theorem C9_flow_reuse_witness :
    (authenticate_manual exchangeFail (str "x") authStFlow0 5).2.1 = 5 :=
  (C9_flow_reuse_amended exchangeFail (str "x") authStFlow0 5 0 rfl).1

/-! ## Claim C7 -/

/-- Claim C7, counterexample: on the sender field "a <b> c" the code takes
everything after the last '<' and deletes every '>', yielding "b c",
whereas the spec's rule — the content between the last '<' and the
'>' (`specRecipient`) — yields "b".  The universally quantified claim is
therefore false at this input. -/
theorem C7_sender_extraction_cex :
    toEmail (str "a <b> c") = str "b c" ∧
    specRecipient (str "a <b> c") = str "b" ∧
    ¬ (str "b c" = str "b") := by
  decide

/-- Claim C7 (amended): when the sender field contains a '<', the resolved
recipient is everything after the last '<' with every '>' character
removed; a field with no '<' is used verbatim.  For a well-formed header
`pre<addr>` whose address part contains no angle bracket this coincides
with the spec's rule, and both quoted examples hold. -/
theorem C7_sender_extraction_amended (pre addr : Str)
    (h1 : hasChar '<' addr = false) (h2 : hasChar '>' addr = false) :
    toEmail (pre ++ ('<' :: (addr ++ ['>']))) = addr ∧
    (∀ s : Str, hasChar '<' s = false → toEmail s = s) ∧
    toEmail (str "Jane Doe <jane@x.com>") = str "jane@x.com" ∧
    toEmail (str "jane@x.com") = str "jane@x.com" := by
  refine ⟨?_, ?_, by decide, by decide⟩
  · have hmemr : hasChar '<' ('<' :: (addr ++ ['>'])) = true := by
      rw [hasChar]
      simp
    have hlt : hasChar '<' (pre ++ ('<' :: (addr ++ ['>']))) = true := by
      rw [hasChar_append, hmemr, Bool.or_true]
    have hnotail : hasChar '<' (addr ++ ['>']) = false := by
      rw [hasChar_append, h1]
      decide
    have hsplit : lastStr (splitOnChar '<' (pre ++ ('<' :: (addr ++ ['>']))))
        = lastStr (splitOnChar '<' ('<' :: (addr ++ ['>'])))
      := lastStr_splitOnChar_append pre hmemr
    have hsplit2 : splitOnChar '<' ('<' :: (addr ++ ['>']))
        = [] :: splitOnChar '<' (addr ++ ['>']) := by
      rw [splitOnChar]
      rcases hs : splitOnChar '<' (addr ++ ['>']) with _ | ⟨x, t⟩
      · exact absurd hs (splitOnChar_ne_nil _ _)
      · simp
    have hsplit3 : splitOnChar '<' (addr ++ ['>']) = [addr ++ ['>']] :=
      splitOnChar_of_not_mem hnotail
    have ha : List.filter (fun c => !(c == '>')) addr = addr := by
      have hr := removeChar_of_not_mem h2
      rw [removeChar] at hr
      exact hr
    have hgt : List.filter (fun c => !(c == '>')) (['>'] : Str) = [] := by
      decide
    simp only [toEmail, hlt, if_true]
    rw [hsplit, hsplit2, hsplit3]
    show removeChar '>' (addr ++ ['>']) = addr
    rw [removeChar, List.filter_append, ha, hgt, List.append_nil]
  · intro s hs
    simp [toEmail, hs]

/-- Claim C7, witness: the amended theorem applied to the spec's own
example, decomposed as display name, '<', address, '>'. -/
theorem C7_sender_extraction_witness :
    toEmail (str "Jane Doe " ++ ('<' :: (str "jane@x.com" ++ ['>'])))
      = str "jane@x.com" :=
  (C7_sender_extraction_amended (str "Jane Doe ") (str "jane@x.com")
    (by decide) (by decide)).1

/-! ## Claim C1 -/

/-- Claim C1, counterexample: one session, one message.  First rerun: Send
is pressed, the send RPC succeeds, the unread-removal RPC fails — the cache
entries are not cleared and the message stays unread.  Second rerun: Send
is pressed again and every RPC succeeds.  The backend accepts two send RPCs
for the same message in one session, refuting "sendReply is invoked at most
once per workflow record's lifetime". -/
theorem C1_at_most_one_send_cex :
    (runTrace env0 [inpPartial, inpAll] s0 g0).2.sendLog
      = [⟨str "a@b.c", str "Re: Hi", str "reply", str "t1"⟩,
         ⟨str "a@b.c", str "Re: Hi", str "reply", str "t1"⟩] := by
  decide

/-- Claim C1 (amended): when the Send handler for message `m` runs and every
RPC succeeds (send, unread removal, label resolution and label addition),
the handler raises nothing, clears both cache entries for `m`, and leaves
no unread message with `m`'s id or in `m`'s thread — `m` is consumed
(`Terminal`).  From any consumed state, any further sequence of reruns of
the session keeps the state consumed and the backend accepts no further
send for `m`'s thread, so nothing is recomputed or resent for `m`.  (When a
label RPC fails after a successful send RPC, the consumed state is not
reached and a second send is possible, as the counterexample shows.) -/
theorem C1_at_most_one_send_amended (env : Env) (inp : RunInput) (m : Email)
    (s : Session) (g : Gmail)
    (hact : inp.action = .send m.id) (hok : inp.rpc = RpcBehavior.allOk)
    (hm : m ∈ g.inbox) (hnd : (g.inbox.map Email.id).Nodup) :
    (handleAction env inp m s g).2.2 = none ∧
    Terminal m.id m.threadId (handleAction env inp m s g).1
      (handleAction env inp m s g).2.1 ∧
    (∀ (env2 : Env) (inps : List RunInput) (s2 : Session) (g2 : Gmail),
      Terminal m.id m.threadId s2 g2 →
      Terminal m.id m.threadId (runTrace env2 inps s2 g2).1
        (runTrace env2 inps s2 g2).2 ∧
      sendsFor (runTrace env2 inps s2 g2).2 m.threadId
        = sendsFor g2 m.threadId) := by
  rcases inp with ⟨act, rpc, det, ins, ed⟩
  subst hact
  subst hok
  have hsend := send_email_allOk g (toEmail m.sender) m.subject (ed m.id) m.threadId
  rcases hres : send_email RpcBehavior.allOk g (toEmail m.sender) m.subject
      (ed m.id) m.threadId with ⟨gf, ex⟩
  rw [hres] at hsend
  have hex : ex = none := hsend.1
  subst hex
  have heq : handleAction env
      ⟨.send m.id, RpcBehavior.allOk, det, ins, ed⟩ m s g
      = ({ summaries := aerase m.id s.summaries,
           replies := aerase m.id s.replies }, gf, none) := by
    simp [handleAction, hres]
  rw [heq]
  refine ⟨rfl, ⟨alookup_aerase_self _ _, alookup_aerase_self _ _, ?_⟩,
    fun env2 inps s2 g2 ht => runTrace_terminal env2 m.id m.threadId inps s2 g2 ht⟩
  intro e hein heun
  rw [hsend.2.1] at hein
  rw [hsend.2.2] at heun
  have hmf := List.mem_filter.mp heun
  have hne : (threadOfId g.inbox e.id == some m.threadId) = false := by
    have hb := hmf.2
    rwa [Bool.not_eq_eq_eq_not, Bool.not_true] at hb
  have hne2 : ¬ threadOfId g.inbox e.id = some m.threadId := by
    intro hh
    rw [hh] at hne
    simp at hne
  constructor
  · intro hide
    apply hne2
    rw [hide]
    exact threadOfId_of_nodup hnd hm
  · intro htid
    apply hne2
    rw [threadOfId_of_nodup hnd hein, htid]

/-- Claim C1, witness: the amended theorem applied to the concrete
single-message backend with an all-success send. -/
theorem C1_at_most_one_send_witness :
    (handleAction env0 inpAll m1 s0 g0).2.2 = none :=
  (C1_at_most_one_send_amended env0 inpAll m1 s0 g0 rfl rfl
    (by decide) (by decide)).1

end GmailApp
